import Mathlib

/-!
Verification of the tags-sync repository: a shallow embedding of the
tag-synchronization engine (src/context.rs, src/main.rs, src/utils/git.rs,
src/utils/github.rs) together with theorems settling the specification
claims about it.

Conventions of the embedding:
* Environment variables are a function `String → Option String`; the
  `get_env!` macro of src/utils/env.rs becomes `getEnv`, returning
  `Except String String` with the same error message.
* Fallible Rust functions returning `anyhow::Result` become
  `Except String _`.
* External effects (regex matching, URL parsing, network, git plumbing
  success) are abstracted as explicit function/Bool parameters, so every
  definition stays executable and the control flow of the source is kept.
-/

set_option maxHeartbeats 1000000

/-- Modelled from the spec: the `SYNC_PREFIX` constant lives in the missing
`src/consts.rs`; the spec fixes it bit-exactly to `"sync-"` (synced branch
name = `sync-` + tag name, fetched tag namespacing = `refs/tags/sync-` +
tag name). -/
def syncPre : String := "sync-"

/-- Modelled from the spec: the `ORIGIN` remote-name constant from the
missing `src/consts.rs`; the spec names the head-repository remote
`origin`. -/
def ORIGIN : String := "origin"

/-- Modelled from the spec: the `UPSTREAM` remote-name constant from the
missing `src/consts.rs`; the spec names the base-repository remote
`upstream`. -/
def UPSTREAM : String := "upstream"

/-- First-match association lookup, used to model git remote/ref tables and
concrete environments. -/
def lookupAssoc {α : Type} : List (String × α) → String → Option α
  | [], _ => none
  | (k, v) :: rest, key => if k = key then some v else lookupAssoc rest key

/-- A concrete environment built from a key/value list. -/
def envOf (pairs : List (String × String)) : String → Option String :=
  fun key => lookupAssoc pairs key

/-- Model of the `get_env!` macro (src/utils/env.rs): reads an environment
variable, failing with the source's error message when it is unset. -/
def getEnv (env : String → Option String) (key : String) : Except String String :=
  match env key with
  | some v => Except.ok v
  | none => Except.error ("Environment variable " ++ key ++ " is not set.")

/-- Rust's `str::split(sep)` on a character list: splits at every separator,
keeping empty pieces, and always yields at least one (possibly empty)
piece. -/
def rustSplitChar (sep : Char) : List Char → List (List Char)
  | [] => [[]]
  | c :: cs =>
    if c = sep then [] :: rustSplitChar sep cs
    else
      match rustSplitChar sep cs with
      | [] => [[c]]
      | h :: t => (c :: h) :: t

/-- Rust's `str::split(sep)` lifted to `String`. -/
def splitStr (sep : Char) (s : String) : List String :=
  (rustSplitChar sep s.data).map (fun cs => String.mk cs)

/-- A tag of the base repository (octocrab `models::repos::Tag`, restricted
to the fields the engine reads). -/
structure Tag where
  name : String
  commit_sha : String
deriving DecidableEq

/-- A branch of the head repository (octocrab `models::repos::Branch`,
restricted to the fields the engine reads). -/
structure Branch where
  name : String
  commit_sha : String
  isProtected : Bool
deriving DecidableEq

/-- The tag-selection loop of `Context::new_tags` (src/context.rs lines
107-113): keep a base tag iff the derived branch name `sync-<name>` is not
among the head branch names and the tag name matches the filter. The
compiled regex is abstracted as the Boolean predicate `filter`. -/
def new_tagsAux (head_branch_names : List String) (filter : String → Bool) :
    List Tag → List Tag
  | [] => []
  | tag :: rest =>
    if (!(head_branch_names.contains (syncPre ++ tag.name))) && filter tag.name then
      tag :: new_tagsAux head_branch_names filter rest
    else
      new_tagsAux head_branch_names filter rest

/-- `Context::new_tags` (src/context.rs lines 96-128), with the two API
listings supplied as inputs: maps head branches to their names and runs the
selection loop in base-tag order. -/
def new_tags (base_tags : List Tag) (head_branches : List Branch)
    (filter : String → Bool) : List Tag :=
  new_tagsAux (head_branches.map Branch.name) filter base_tags

/-- The content `Context::new_tags` writes to the new-tags file
(src/context.rs lines 116-125): comma-joined tag names; the write is
unconditional, which the `some` encodes. -/
def new_tags_written (base_tags : List Tag) (head_branches : List Branch)
    (filter : String → Bool) : Option String :=
  some (String.intercalate "," ((new_tags base_tags head_branches filter).map Tag.name))

/-- The sync stage's parse of the handoff file (src/main.rs line 80):
`file_content.split('\n')` with no filtering of empty entries. -/
def sync_stage_tags (content : String) : List String :=
  splitStr '\n' content

theorem new_tagsAux_eq_filter (hs : List String) (f : String → Bool) (l : List Tag) :
    new_tagsAux hs f l =
      l.filter (fun t => (!(hs.contains (syncPre ++ t.name))) && f t.name) := by
  induction l with
  | nil => rfl
  | cons t rest ih =>
    rw [List.filter_cons]
    by_cases h : ((!(hs.contains (syncPre ++ t.name))) && f t.name) = true
    · simp [new_tagsAux, h, ih]
    · simp [new_tagsAux, h, ih]

theorem rustSplitChar_ne_nil (sep : Char) (l : List Char) :
    rustSplitChar sep l ≠ [] := by
  cases l with
  | nil => simp [rustSplitChar]
  | cons c cs =>
    simp only [rustSplitChar]
    by_cases h : c = sep
    · simp [h]
    · simp only [h, if_neg, not_false_eq_true]
      cases rustSplitChar sep cs <;> simp

theorem mem_new_tags (base : List Tag) (heads : List Branch) (f : String → Bool)
    (u : Tag) :
    u ∈ new_tags base heads f ↔
      u ∈ base ∧ (heads.map Branch.name).contains (syncPre ++ u.name) = false ∧
        f u.name = true := by
  unfold new_tags
  rw [new_tagsAux_eq_filter]
  simp [List.mem_filter, and_assoc]

/-- Claim C1: a tag's name appears in the result of `Context::new_tags` iff
it matches the filter and the derived name `sync-` + name is absent from
the head branch names; the output is a sublist of the base-tag list (API
order, no re-sorting); an empty base-tag list yields an empty result. -/
theorem new_tags_spec (base : List Tag) (heads : List Branch) (f : String → Bool) :
    (∀ t, t ∈ base →
      (t.name ∈ (new_tags base heads f).map Tag.name ↔
        (f t.name = true ∧ (syncPre ++ t.name) ∉ heads.map Branch.name))) ∧
    (new_tags base heads f).Sublist base ∧
    new_tags [] heads f = [] := by
  refine ⟨?_, ?_, rfl⟩
  · intro t ht
    constructor
    · intro hmem
      rw [List.mem_map] at hmem
      obtain ⟨u, hu, hname⟩ := hmem
      rw [mem_new_tags] at hu
      obtain ⟨-, hc, hf⟩ := hu
      rw [hname] at hc hf
      refine ⟨hf, ?_⟩
      simpa [List.contains, List.elem_eq_mem] using hc
    · intro ⟨hf, habs⟩
      rw [List.mem_map]
      refine ⟨t, ?_, rfl⟩
      rw [mem_new_tags]
      refine ⟨ht, ?_, hf⟩
      simpa [List.contains, List.elem_eq_mem] using habs
  · rw [new_tags, new_tagsAux_eq_filter]
    exact List.filter_sublist base

/-- Concrete instance of `new_tags_spec`: base tags `v1.0`, `v1.1`, head
branch `sync-v1.0`, trivial filter — the name `v1.1` is selected. -/
theorem new_tags_spec_witness :
    "v1.1" ∈ (new_tags [⟨"v1.0", "a"⟩, ⟨"v1.1", "b"⟩] [⟨"sync-v1.0", "a", false⟩]
      (fun _ => true)).map Tag.name :=
  ((new_tags_spec [⟨"v1.0", "a"⟩, ⟨"v1.1", "b"⟩] [⟨"sync-v1.0", "a", false⟩]
      (fun _ => true)).1 ⟨"v1.1", "b"⟩ (by simp)).mpr ⟨rfl, by decide⟩

/-- Claim C10: the sync stage splits the handoff file content on a newline
with no filtering of empty entries, so the parsed list is never empty and
empty file content parses to a single empty-string tag name; the detect
stage's `Context::new_tags` writes the handoff file even when the new-tag
set is empty (empty content), so such a file can exist. -/
theorem sync_stage_tags_spec :
    (∀ content : String, sync_stage_tags content ≠ []) ∧
    sync_stage_tags "" = [""] ∧
    (∀ (heads : List Branch) (f : String → Bool),
      new_tags_written [] heads f = some "") := by
  refine ⟨?_, rfl, fun heads f => rfl⟩
  intro content
  unfold sync_stage_tags splitStr
  intro h
  exact rustSplitChar_ne_nil '\n' content.data (List.map_eq_nil_iff.mp h)

/-- Concrete instance of `sync_stage_tags_spec`: the empty handoff file
parses to a non-empty tag list. -/
theorem sync_stage_tags_spec_witness : sync_stage_tags "" ≠ [] :=
  sync_stage_tags_spec.1 ""

/-- Outcome of the post-sync bash subprocess in `Context::sync_tags`
(src/context.rs lines 159-165): `spawn()?` can fail, `wait()?` can fail at
the OS level, or the process exits with some status code. -/
inductive HookRes where
  | spawnFail : HookRes
  | waitFail : HookRes
  | exited : Nat → HookRes
deriving DecidableEq

/-- Observable completed side effects of `Context::sync_tags`: the single
batched upstream fetch and, per tag, the completed pipeline steps. -/
inductive SyncEv where
  | fetch : List String → SyncEv
  | checkout : String → SyncEv
  | patch : String → SyncEv
  | push : String → SyncEv
  | hook : String → SyncEv
deriving DecidableEq

/-- Oracles deciding the success of each external operation performed by
`Context::sync_tags`: patch download, clone-or-open, the batched upstream
fetch (a function of the whole requested tag list, as in the source), and
the per-tag git steps and post-hook subprocess. -/
structure SyncOps where
  download_ok : Bool
  clone_ok : Bool
  fetch_ok : List String → Bool
  checkout_ok : String → Bool
  patch_ok : String → Bool
  push_ok : String → Bool
  hook : String → HookRes

/-- One iteration of the per-tag loop of `Context::sync_tags`
(src/context.rs lines 151-166): checkout, patch apply (with its commit),
push, then — only when `commands_after_sync` is non-empty — spawn and wait
the bash post-hook. Returns the completed steps and whether the iteration
succeeded. The exit status returned by `wait()` is discarded by the
source (`.wait()?;`), so `exited code` succeeds for every `code`. -/
def syncTag (ops : SyncOps) (commands_after_sync : String) (t : String) :
    List SyncEv × Bool :=
  if ops.checkout_ok t = false then ([], false)
  else if ops.patch_ok t = false then ([SyncEv.checkout t], false)
  else if ops.push_ok t = false then ([SyncEv.checkout t, SyncEv.patch t], false)
  else if commands_after_sync.isEmpty then
    ([SyncEv.checkout t, SyncEv.patch t, SyncEv.push t], true)
  else
    match ops.hook t with
    | HookRes.exited _ =>
      ([SyncEv.checkout t, SyncEv.patch t, SyncEv.push t, SyncEv.hook t], true)
    | HookRes.spawnFail => ([SyncEv.checkout t, SyncEv.patch t, SyncEv.push t], false)
    | HookRes.waitFail => ([SyncEv.checkout t, SyncEv.patch t, SyncEv.push t], false)

/-- The `for tag in new_tags` loop of `Context::sync_tags`: the `?`
operator propagates the first per-tag failure, so the loop stops at the
first iteration whose result is an error. -/
def syncLoop (ops : SyncOps) (commands_after_sync : String) :
    List String → List SyncEv × Bool
  | [] => ([], true)
  | t :: ts =>
    if (syncTag ops commands_after_sync t).2 then
      ((syncTag ops commands_after_sync t).1 ++ (syncLoop ops commands_after_sync ts).1,
        (syncLoop ops commands_after_sync ts).2)
    else ((syncTag ops commands_after_sync t).1, false)

/-- The concatenated event trace of a list of fully processed tags. -/
def fullTrace (ops : SyncOps) (commands_after_sync : String) :
    List String → List SyncEv
  | [] => []
  | t :: ts => (syncTag ops commands_after_sync t).1 ++ fullTrace ops commands_after_sync ts

/-- `Context::sync_tags` (src/context.rs lines 131-169): download the patch
once, clone-or-open the repository, fetch all requested tags from upstream
in one batched call, then run the per-tag loop. -/
def sync_tags (ops : SyncOps) (commands_after_sync : String) (new_tags : List String) :
    List SyncEv × Bool :=
  if ops.download_ok = false then ([], false)
  else if ops.clone_ok = false then ([], false)
  else if ops.fetch_ok new_tags = false then ([], false)
  else
    (SyncEv.fetch new_tags :: (syncLoop ops commands_after_sync new_tags).1,
      (syncLoop ops commands_after_sync new_tags).2)

theorem syncTag_ok_events (ops : SyncOps) (cmds : String) (t : String)
    (h : (syncTag ops cmds t).2 = true) :
    SyncEv.checkout t ∈ (syncTag ops cmds t).1 ∧
    SyncEv.patch t ∈ (syncTag ops cmds t).1 ∧
    SyncEv.push t ∈ (syncTag ops cmds t).1 := by
  unfold syncTag at *
  split at h
  · simp_all
  · split at h
    · simp_all
    · split at h
      · simp_all
      · split at h
        · simp_all
        · split at h <;> simp_all

/-- Oracles for the C2 counterexample: every step succeeds except the
batched upstream fetch, which fails exactly when the requested list
contains `"t2"` — a fetch failure attributable to the second tag. -/
def opsBatchFetch : SyncOps where
  download_ok := true
  clone_ok := true
  fetch_ok := fun ts => !(ts.contains "t2")
  checkout_ok := fun _ => true
  patch_ok := fun _ => true
  push_ok := fun _ => true
  hook := fun _ => HookRes.exited 0

/-- Claim C2 as stated is false: the upstream fetch is listed among the
per-tag pipeline steps, but `Context::sync_tags` performs it once for the
whole list before the loop. When the fetch fails because of the second tag
of `["t1", "t2"]`, the claim predicts that the first tag has been fully
processed (its branch pushed); in fact the run aborts with no step of any
tag executed — not even `t1`'s checkout or push. -/
theorem sync_tags_batch_fetch_counterexample :
    (sync_tags opsBatchFetch "" ["t1", "t2"]).2 = false ∧
    opsBatchFetch.fetch_ok ["t1"] = true ∧
    SyncEv.push "t1" ∉ (sync_tags opsBatchFetch "" ["t1", "t2"]).1 ∧
    SyncEv.checkout "t1" ∉ (sync_tags opsBatchFetch "" ["t1", "t2"]).1 := by
  decide

/-- Claim C2 (amended): for the steps that are per-tag in the source —
checkout, patch apply, push, post-hook — a failure at the i-th tag makes
the loop of `Context::sync_tags` return an error immediately: the trace is
exactly the full traces of the first i tags followed by the completed
steps of the i-th tag (so the i-th tag's remaining steps are not executed
and no later tag is attempted), and every earlier tag's branch was
pushed. The upstream fetch is not per-tag: it runs once for the whole list
before the loop, and its failure aborts the run with no tag processed. -/
theorem sync_tags_first_failure (ops : SyncOps) (cmds : String) (tags : List String)
    (i : Nat) (hi : i < tags.length)
    (hpre : ∀ j (hj : j < i), (syncTag ops cmds (tags.get ⟨j, Nat.lt_trans hj hi⟩)).2 = true)
    (hfail : (syncTag ops cmds (tags.get ⟨i, hi⟩)).2 = false) :
    (syncLoop ops cmds tags).2 = false ∧
    (syncLoop ops cmds tags).1 =
      fullTrace ops cmds (tags.take i) ++ (syncTag ops cmds (tags.get ⟨i, hi⟩)).1 ∧
    ∀ j (hj : j < i),
      SyncEv.push (tags.get ⟨j, Nat.lt_trans hj hi⟩) ∈ (syncLoop ops cmds tags).1 := by
  induction tags generalizing i with
  | nil => exact absurd hi (Nat.not_lt_zero i)
  | cons t ts ih =>
    cases i with
    | zero =>
      have hf : (syncTag ops cmds t).2 = false := hfail
      refine ⟨?_, ?_, ?_⟩
      · simp [syncLoop, hf]
      · simp [syncLoop, hf, fullTrace]
      · intro j hj
        exact absurd hj (Nat.not_lt_zero j)
    | succ k =>
      have h0 : (syncTag ops cmds t).2 = true := hpre 0 (Nat.succ_pos k)
      have hi' : k < ts.length := Nat.lt_of_succ_lt_succ hi
      have hpre' : ∀ j (hj : j < k),
          (syncTag ops cmds (ts.get ⟨j, Nat.lt_trans hj hi'⟩)).2 = true :=
        fun j hj => hpre (j + 1) (Nat.succ_lt_succ hj)
      have hfail' : (syncTag ops cmds (ts.get ⟨k, hi'⟩)).2 = false := hfail
      obtain ⟨ih1, ih2, ih3⟩ := ih k hi' hpre' hfail'
      refine ⟨?_, ?_, ?_⟩
      · simp [syncLoop, h0, ih1]
      · have hstep : syncLoop ops cmds (t :: ts) =
            ((syncTag ops cmds t).1 ++ (syncLoop ops cmds ts).1,
              (syncLoop ops cmds ts).2) := by
          simp [syncLoop, h0]
        have hget : (t :: ts).get ⟨k + 1, hi⟩ = ts.get ⟨k, hi'⟩ := rfl
        rw [hstep, hget, List.take_succ_cons]
        show (syncTag ops cmds t).1 ++ (syncLoop ops cmds ts).1 = _
        simp only [fullTrace, List.append_assoc, ih2]
      · intro j hj
        cases j with
        | zero =>
          have hpush := (syncTag_ok_events ops cmds t h0).2.2
          simp only [syncLoop, h0, if_true]
          exact List.mem_append_left _ hpush
        | succ j' =>
          have hmem := ih3 j' (Nat.lt_of_succ_lt_succ hj)
          simp only [syncLoop, h0, if_true]
          exact List.mem_append_right _ hmem

/-- Oracles for the C2 witness: every step succeeds except the push of the
branch of tag `"b"`. -/
def opsPushB : SyncOps where
  download_ok := true
  clone_ok := true
  fetch_ok := fun _ => true
  checkout_ok := fun _ => true
  patch_ok := fun _ => true
  push_ok := fun t => !(t == "b")
  hook := fun _ => HookRes.exited 0

/-- Concrete instance of `sync_tags_first_failure`: with three tags and a
push failure on the second, the loop returns an error. -/
theorem sync_tags_first_failure_witness :
    (syncLoop opsPushB "" ["a", "b", "c"]).2 = false :=
  (sync_tags_first_failure opsPushB "" ["a", "b", "c"] 1 (by decide) (by decide)
    (by decide)).1

/-- Oracles for the C4 counterexample: all git steps succeed and the
post-hook process exits with status 1. -/
def opsHookExit1 : SyncOps where
  download_ok := true
  clone_ok := true
  fetch_ok := fun _ => true
  checkout_ok := fun _ => true
  patch_ok := fun _ => true
  push_ok := fun _ => true
  hook := fun _ => HookRes.exited 1

/-- Claim C4 as stated is false: with a non-empty post-sync command whose
process exits with status 1, the iteration of `Context::sync_tags`
nevertheless succeeds — the source runs `.spawn()?.wait()?;` and discards
the `ExitStatus` returned by `wait()`, so a non-zero exit is never turned
into an error. -/
theorem post_hook_exit_counterexample :
    opsHookExit1.hook "t1" = HookRes.exited 1 ∧
    (syncTag opsHookExit1 "echo hi" "t1").2 = true ∧
    SyncEv.hook "t1" ∈ (syncTag opsHookExit1 "echo hi" "t1").1 := by
  decide

/-- Claim C4 (amended): for a tag whose git steps succeed and with a
non-empty configured post-sync command, the iteration fails iff the
subprocess could not be spawned or waited on at the OS level; an exit with
any status code — zero or not — leaves the iteration successful, because
the exit status returned by `wait()` is discarded. -/
theorem post_hook_spawn_only_error (ops : SyncOps) (cmds t : String)
    (hcmds : cmds.isEmpty = false)
    (hc : ops.checkout_ok t = true) (hp : ops.patch_ok t = true)
    (hpu : ops.push_ok t = true) :
    ((syncTag ops cmds t).2 = false ↔
      (ops.hook t = HookRes.spawnFail ∨ ops.hook t = HookRes.waitFail)) ∧
    (∀ code, ops.hook t = HookRes.exited code → (syncTag ops cmds t).2 = true) := by
  unfold syncTag
  rw [hc, hp, hpu, hcmds]
  constructor
  · cases hh : ops.hook t <;> simp
  · intro code hcode
    simp [hcode]

/-- Concrete instance of `post_hook_spawn_only_error`: a spawn failure
makes the iteration fail. -/
def opsHookSpawnFail : SyncOps where
  download_ok := true
  clone_ok := true
  fetch_ok := fun _ => true
  checkout_ok := fun _ => true
  patch_ok := fun _ => true
  push_ok := fun _ => true
  hook := fun _ => HookRes.spawnFail

/-- Concrete instance of `post_hook_spawn_only_error` at a tag whose
post-hook fails to spawn: the iteration returns an error. -/
theorem post_hook_spawn_only_error_witness :
    (syncTag opsHookSpawnFail "echo hi" "t1").2 = false :=
  (post_hook_spawn_only_error opsHookSpawnFail "echo hi" "t1" rfl rfl rfl rfl).1.mpr
    (Or.inl rfl)

/-- `str.split('/')` check of `Context::new::parse_repo` (src/context.rs
lines 52-61): exactly two pieces, returned as (owner, name). -/
def parse_repo (value : String) : Except String (String × String) :=
  match splitStr '/' value with
  | [a, b] => Except.ok (a, b)
  | _ => Except.error ("'" ++ value ++ "' must be in format 'owner/repo'.")

/-- The configuration record of src/context.rs (`struct Context`), with the
compiled regex kept as its validated pattern and the parsed URL as its
validated text. -/
structure Context where
  base_repo_owner : String
  base_repo_name : String
  head_repo_owner : String
  head_repo_name : String
  clone_path : String
  filter_tags : String
  patch_file_url : String
  new_tags_file : String
  commands_after_sync : String
deriving DecidableEq

/-- `Context::new` (src/context.rs lines 51-85), in source evaluation
order: GITHUB_WORKSPACE, BASE_REPO and HEAD_REPO parsing, the GitHub API
client (which reads GITHUB_TOKEN via `github_token`), FILTER_TAGS compiled
as a regex (`regexOk` abstracts `Regex::new`), PATCH_URL parsed as a URL
(`urlParse` abstracts `Url::parse`; in particular it is a required
variable and must parse), CLONED_PATH, and COMMANDS_AFTER_SYNC. Any
missing variable or failed parse is fatal. -/
def Context.new (env : String → Option String) (regexOk : String → Bool)
    (urlParse : String → Option String) : Except String Context :=
  match getEnv env "GITHUB_WORKSPACE" with
  | Except.error e => Except.error e
  | Except.ok github_workspace =>
  match getEnv env "BASE_REPO" with
  | Except.error e => Except.error e
  | Except.ok base_repo =>
  match parse_repo base_repo with
  | Except.error e => Except.error e
  | Except.ok (base_repo_owner, base_repo_name) =>
  match getEnv env "HEAD_REPO" with
  | Except.error e => Except.error e
  | Except.ok head_repo =>
  match parse_repo head_repo with
  | Except.error e => Except.error e
  | Except.ok (head_repo_owner, head_repo_name) =>
  match getEnv env "GITHUB_TOKEN" with
  | Except.error e => Except.error e
  | Except.ok _ =>
  match getEnv env "FILTER_TAGS" with
  | Except.error e => Except.error e
  | Except.ok filter_tags =>
  if regexOk filter_tags = false then
    Except.error ("invalid filter regular expression: " ++ filter_tags)
  else
  match getEnv env "PATCH_URL" with
  | Except.error e => Except.error e
  | Except.ok patch_url_raw =>
  match urlParse patch_url_raw with
  | none => Except.error ("invalid patch file URL: " ++ patch_url_raw)
  | some patch_file_url =>
  match getEnv env "CLONED_PATH" with
  | Except.error e => Except.error e
  | Except.ok cloned_path =>
  match getEnv env "COMMANDS_AFTER_SYNC" with
  | Except.error e => Except.error e
  | Except.ok commands_after_sync =>
  Except.ok
    { base_repo_owner := base_repo_owner
      base_repo_name := base_repo_name
      head_repo_owner := head_repo_owner
      head_repo_name := head_repo_name
      clone_path := github_workspace ++ "/" ++ cloned_path
      filter_tags := filter_tags
      patch_file_url := patch_file_url
      new_tags_file := github_workspace ++ "/new_tags.txt"
      commands_after_sync := commands_after_sync }

/-- An environment with every variable `Context::new` reads except
PATCH_URL: no patch source is configured. -/
def envNoPatchUrl : String → Option String :=
  envOf [("GITHUB_WORKSPACE", "/w"), ("BASE_REPO", "rust-lang/rustlings"),
    ("HEAD_REPO", "ZhangHanDong/rustlings"), ("GITHUB_TOKEN", "tok"),
    ("FILTER_TAGS", ".*"), ("CLONED_PATH", "rustlings-head"),
    ("COMMANDS_AFTER_SYNC", "")]

/-- Claim C3 as stated is false: with no patch source URL configured
(PATCH_URL unset) and every other variable present, configuration loading
does not succeed — `Context::new` evaluates
`Url::parse(&get_env!("PATCH_URL"))?` and the `get_env!` fails. -/
theorem context_new_no_patch_url_counterexample :
    Context.new envNoPatchUrl (fun _ => true) (fun s => some s) =
      Except.error "Environment variable PATCH_URL is not set." := by
  rfl

/-- Claim C3 (amended): the patch stage is mandatory. Configuration loading
fails whenever PATCH_URL is unset (whatever the regex and URL parsers do),
the patch download is the first step of `Context::sync_tags` and is never
skipped (a failing download aborts the run even for an empty tag list),
and every successful tag iteration includes the patch-apply step. -/
theorem patch_stage_mandatory (env : String → Option String)
    (regexOk : String → Bool) (urlParse : String → Option String)
    (hnone : env "PATCH_URL" = none) :
    (∀ c : Context, Context.new env regexOk urlParse ≠ Except.ok c) ∧
    (∀ (ops : SyncOps) (cmds : String) (tags : List String),
      ops.download_ok = false → sync_tags ops cmds tags = ([], false)) ∧
    (∀ (ops : SyncOps) (cmds t : String),
      (syncTag ops cmds t).2 = true → SyncEv.patch t ∈ (syncTag ops cmds t).1) := by
  refine ⟨?_, ?_, ?_⟩
  · intro c hc
    unfold Context.new at hc
    repeat' split at hc
    all_goals simp_all [getEnv, hnone]
  · intro ops cmds tags hdl
    simp [sync_tags, hdl]
  · intro ops cmds t h
    exact (syncTag_ok_events ops cmds t h).2.1

/-- Concrete instance of `patch_stage_mandatory`: with PATCH_URL unset the
configuration does not load. -/
theorem patch_stage_mandatory_witness :
    Context.new envNoPatchUrl (fun _ => true) (fun s => some s) ≠
      Except.ok
        { base_repo_owner := "rust-lang", base_repo_name := "rustlings",
          head_repo_owner := "ZhangHanDong", head_repo_name := "rustlings",
          clone_path := "/w/rustlings-head", filter_tags := ".*",
          patch_file_url := "", new_tags_file := "/w/new_tags.txt",
          commands_after_sync := "" } :=
  (patch_stage_mandatory envNoPatchUrl (fun _ => true) (fun s => some s) rfl).1 _

/-- `git_remote_set_url` on the remote table: replaces the URL of the named
remote in place; in this workflow the remote always exists (a clone always
has `origin`), and a missing name is appended so the update is total. -/
def setRemote : List (String × String) → String → String → List (String × String)
  | [], name, url => [(name, url)]
  | (k, v) :: rest, name, url =>
    if k = name then (k, url) :: rest else (k, v) :: setRemote rest name url

/-- The credential-bearing origin URL built by `Context::clone_repo`
(src/context.rs lines 201-210):
`https://<token>@github.com/<actor>/<head_repo_name>.git` — note the owner
segment is GITHUB_ACTOR, not the head repository owner. -/
def credUrl (token actor head_repo_name : String) : String :=
  "https://" ++ token ++ "@github.com/" ++ actor ++ "/" ++ head_repo_name ++ ".git"

/-- The credential step shared by both branches of `Context::clone_repo`:
read GITHUB_TOKEN (via `github_token`) and GITHUB_ACTOR fresh from the
environment and rewrite the `origin` remote URL. -/
def applyOriginCred (env : String → Option String) (head_repo_name : String)
    (remotes : List (String × String)) (did_clone : Bool) :
    Except String (List (String × String) × Bool) :=
  match getEnv env "GITHUB_TOKEN" with
  | Except.error e => Except.error e
  | Except.ok token =>
  match getEnv env "GITHUB_ACTOR" with
  | Except.error e => Except.error e
  | Except.ok actor =>
  Except.ok (setRemote remotes ORIGIN (credUrl token actor head_repo_name), did_clone)

/-- `Context::clone_repo` (src/context.rs lines 171-215) on the remote
table of the repository at `clone_path`. `existing = none` models a
non-existing clone path: resolve both clone URLs (head first, failing with
the source's context message when the API returns none), clone the head
repository (creating remote `origin`), add remote `upstream` for the base
repository. `existing = some remotes` models an existing path: open it
directly, keeping its remotes. Both branches then re-apply the
credential-bearing `origin` URL. The Bool of the result records whether a
network clone was performed. -/
def clone_repo (env : String → Option String) (head_repo_name : String)
    (head_clone_url base_clone_url : Option String)
    (existing : Option (List (String × String))) :
    Except String (List (String × String) × Bool) :=
  match existing with
  | none =>
    match head_clone_url with
    | none => Except.error "Failed to get clone URL for head repository."
    | some head_url =>
      match base_clone_url with
      | none => Except.error "Failed to get clone URL for base repository."
      | some base_url =>
        applyOriginCred env head_repo_name
          [(ORIGIN, head_url), (UPSTREAM, base_url)] true
  | some remotes => applyOriginCred env head_repo_name remotes false

theorem lookupAssoc_setRemote_self (l : List (String × String)) (name url : String) :
    lookupAssoc (setRemote l name url) name = some url := by
  induction l with
  | nil => simp [setRemote, lookupAssoc]
  | cons p rest ih =>
    obtain ⟨k, v⟩ := p
    by_cases hk : k = name
    · simp [setRemote, lookupAssoc, hk]
    · simp [setRemote, lookupAssoc, hk, ih]

theorem lookupAssoc_setRemote_other (l : List (String × String))
    (name url r : String) (hr : r ≠ name) :
    lookupAssoc (setRemote l name url) r = lookupAssoc l r := by
  induction l with
  | nil => simp [setRemote, lookupAssoc, Ne.symm hr]
  | cons p rest ih =>
    obtain ⟨k, v⟩ := p
    by_cases hk : k = name
    · simp [setRemote, hk, lookupAssoc, Ne.symm hr]
    · simp [setRemote, hk, lookupAssoc, ih]

/-- The environment used for the C5 counterexample and the C5/C8
witnesses: the configured actor `chachako` differs from the head
repository owner `ZhangHanDong` (the values of the repository's own test
setup in src/context.rs). -/
def envActor : String → Option String :=
  envOf [("GITHUB_TOKEN", "tok"), ("GITHUB_ACTOR", "chachako"),
    ("HEAD_REPO", "ZhangHanDong/rustlings")]

/-- Claim C5 as stated is false: after a successful fresh acquisition with
head repository `ZhangHanDong/rustlings` and actor `chachako`, the
`origin` URL embeds the token and the actor — it does not name the head
repository's owner, since the source interpolates `GITHUB_ACTOR` into the
owner segment. -/
theorem clone_repo_owner_counterexample :
    clone_repo envActor "rustlings" (some "https://github.com/ZhangHanDong/rustlings.git")
        (some "https://github.com/rust-lang/rustlings.git") none =
      Except.ok ([(ORIGIN, credUrl "tok" "chachako" "rustlings"),
        (UPSTREAM, "https://github.com/rust-lang/rustlings.git")], true) ∧
    credUrl "tok" "chachako" "rustlings" ≠ credUrl "tok" "ZhangHanDong" "rustlings" := by
  constructor
  · rfl
  · decide

/-- Claim C5 (amended): after every successful acquisition of the
repository handle, whether the clone path existed or not, the `origin`
remote URL is `https://<token>@github.com/<actor>/<head_repo_name>.git`
with the token and actor read fresh from the environment — the owner
segment is the configured actor (GITHUB_ACTOR), not the head repository's
owner. -/
theorem clone_repo_origin_cred (env : String → Option String)
    (head_repo_name : String) (head_clone_url base_clone_url : Option String)
    (existing : Option (List (String × String)))
    (remotes : List (String × String)) (did : Bool) (token actor : String)
    (hok : clone_repo env head_repo_name head_clone_url base_clone_url existing =
      Except.ok (remotes, did))
    (ht : env "GITHUB_TOKEN" = some token) (ha : env "GITHUB_ACTOR" = some actor) :
    lookupAssoc remotes ORIGIN = some (credUrl token actor head_repo_name) := by
  unfold clone_repo applyOriginCred at hok
  simp only [getEnv, ht, ha] at hok
  repeat' split at hok
  all_goals simp_all
  all_goals rw [← hok.1]
  all_goals exact lookupAssoc_setRemote_self _ _ _

/-- Concrete instance of `clone_repo_origin_cred` against a cached clone
whose origin URL was stale. -/
theorem clone_repo_origin_cred_witness :
    lookupAssoc (setRemote [(ORIGIN, "stale"), ("cache", "x")] ORIGIN
        (credUrl "tok" "chachako" "rustlings")) ORIGIN =
      some (credUrl "tok" "chachako" "rustlings") :=
  clone_repo_origin_cred envActor "rustlings" none none
    (some [(ORIGIN, "stale"), ("cache", "x")])
    (setRemote [(ORIGIN, "stale"), ("cache", "x")] ORIGIN
      (credUrl "tok" "chachako" "rustlings")) false "tok" "chachako" rfl rfl rfl

/-- Claim C8: when the clone path exists, `Context::clone_repo` opens the
existing repository: no clone is performed (the Bool is `false`), every
remote other than `origin` — including any extra remote added between two
acquisitions — keeps its URL, and the credential-bearing `origin` URL is
re-applied from the fresh token and actor on this acquisition too. -/
theorem clone_repo_cached (env : String → Option String) (head_repo_name : String)
    (head_clone_url base_clone_url : Option String)
    (remotes : List (String × String)) (token actor : String)
    (_horigin : (lookupAssoc remotes ORIGIN).isSome = true)
    (ht : env "GITHUB_TOKEN" = some token) (ha : env "GITHUB_ACTOR" = some actor) :
    clone_repo env head_repo_name head_clone_url base_clone_url (some remotes) =
      Except.ok (setRemote remotes ORIGIN (credUrl token actor head_repo_name),
        false) ∧
    (∀ r, r ≠ ORIGIN →
      lookupAssoc (setRemote remotes ORIGIN (credUrl token actor head_repo_name)) r =
        lookupAssoc remotes r) ∧
    lookupAssoc (setRemote remotes ORIGIN (credUrl token actor head_repo_name))
        ORIGIN =
      some (credUrl token actor head_repo_name) := by
  refine ⟨?_, ?_, lookupAssoc_setRemote_self _ _ _⟩
  · unfold clone_repo applyOriginCred
    simp [getEnv, ht, ha]
  · intro r hrne
    exact lookupAssoc_setRemote_other _ _ _ _ hrne

/-- Concrete instance of `clone_repo_cached`: a remote named `cache` added
between two acquisitions is still present (with its URL intact) after
re-acquiring against the existing path. -/
theorem clone_repo_cached_witness :
    lookupAssoc (setRemote [(ORIGIN, "stale"), ("cache", "x")] ORIGIN
        (credUrl "tok" "chachako" "rustlings")) "cache" =
      lookupAssoc [(ORIGIN, "stale"), ("cache", "x")] "cache" :=
  (clone_repo_cached envActor "rustlings" none none
    [(ORIGIN, "stale"), ("cache", "x")] "tok" "chachako" (by decide) rfl rfl).2.1
    "cache" (by decide)

/-- The `download_tags` fetch option (`git2::AutotagOption`): `noneOpt`
disables automatic download of tags not named by the refspecs. -/
inductive Autotag where
  | unspecified : Autotag
  | autoOpt : Autotag
  | noneOpt : Autotag
  | allOpt : Autotag
deriving DecidableEq

/-- The single batched fetch call issued by `RepoExt::fetch_upstream_tags`
(src/utils/git.rs lines 21-35): which remote, which refspecs, and the
autotag setting. -/
structure FetchCall where
  remote : String
  refspecs : List String
  download_tags : Autotag
deriving DecidableEq

/-- The refspec built for one requested tag (src/utils/git.rs line 25):
`+refs/tags/<tag>:refs/tags/sync-<tag>`. -/
def tagRefspec (tag : String) : String :=
  "+refs/tags/" ++ tag ++ ":refs/tags/" ++ syncPre ++ tag

/-- `RepoExt::fetch_upstream_tags` (src/utils/git.rs lines 21-35): one
refspec per requested tag, fetched from the `upstream` remote with
automatic tag download disabled. -/
def fetch_upstream_tags (tags : List String) : FetchCall :=
  { remote := UPSTREAM
    refspecs := tags.map tagRefspec
    download_tags := Autotag.noneOpt }

/-- Claim C6: for every non-empty requested tag list, the upstream fetch
uses exactly one refspec per requested tag, in order, each mapping
`refs/tags/<tag>` to the namespaced local ref `refs/tags/sync-<tag>`; the
destination ref of a tag's refspec is never the local ref
`refs/tags/<tag>` itself; and automatic download of other tags is
disabled. -/
theorem fetch_upstream_tags_spec (tags : List String) (_hne : tags ≠ []) :
    (fetch_upstream_tags tags).remote = UPSTREAM ∧
    (fetch_upstream_tags tags).download_tags = Autotag.noneOpt ∧
    (fetch_upstream_tags tags).refspecs =
      tags.map (fun t => "+refs/tags/" ++ t ++ ":refs/tags/" ++ syncPre ++ t) ∧
    (fetch_upstream_tags tags).refspecs.length = tags.length ∧
    (∀ t, t ∈ tags → "refs/tags/" ++ syncPre ++ t ≠ "refs/tags/" ++ t) := by
  refine ⟨rfl, rfl, rfl, by simp [fetch_upstream_tags], ?_⟩
  intro t ht heq
  have hlen := congrArg String.length heq
  simp only [String.length_append] at hlen
  have h5 : syncPre.length = 5 := rfl
  omega

/-- Concrete instance of `fetch_upstream_tags_spec` at the tag list
`["5.2.0"]` used by the repository's own test. -/
theorem fetch_upstream_tags_spec_witness :
    (fetch_upstream_tags ["5.2.0"]).refspecs =
      ["+refs/tags/5.2.0:refs/tags/sync-5.2.0"] := by
  have h := (fetch_upstream_tags_spec ["5.2.0"] (by decide)).2.2.1
  rw [h]
  decide

/-- The local repository state seen by `RepoExt::checkout_tag`: its refs
(tag refs and branch heads, each resolved — peeled — to a commit id), the
name of the current head ref, and the commit the working tree is checked
out at. -/
structure GitRepo where
  refs : List (String × Nat)
  head : String
  workdir : Option Nat
deriving DecidableEq

/-- `RepoExt::checkout_tag` (src/utils/git.rs lines 37-67): resolve the
fetched ref `refs/tags/sync-<tag>` to its commit, create the local branch
`sync-<tag>` at that commit (`repo.branch(..., force = false)` errors when
the branch already exists), set the head to the branch ref and check out
the working tree at it. -/
def checkout_tag (repo : GitRepo) (tag : String) : Except String GitRepo :=
  match lookupAssoc repo.refs ("refs/tags/" ++ syncPre ++ tag) with
  | none => Except.error ("reference refs/tags/" ++ syncPre ++ tag ++ " not found")
  | some tag_commit =>
    if (lookupAssoc repo.refs ("refs/heads/" ++ syncPre ++ tag)).isSome then
      Except.error ("a branch named " ++ syncPre ++ tag ++ " already exists")
    else
      Except.ok
        { refs := repo.refs ++ [("refs/heads/" ++ syncPre ++ tag, tag_commit)]
          head := "refs/heads/" ++ syncPre ++ tag
          workdir := some tag_commit }

theorem lookupAssoc_append_single {α : Type} (l : List (String × α)) (k : String)
    (v : α) (h : lookupAssoc l k = none) :
    lookupAssoc (l ++ [(k, v)]) k = some v := by
  induction l with
  | nil => simp [lookupAssoc]
  | cons p rest ih =>
    obtain ⟨k0, v0⟩ := p
    by_cases hk : k0 = k
    · simp [lookupAssoc, hk] at h
    · simp only [lookupAssoc, hk, if_neg, not_false_eq_true, List.cons_append]
      simp only [lookupAssoc, hk, if_neg, not_false_eq_true] at h ⊢
      exact ih h

/-- Claim C7: `checkout_tag t` resolves the commit of the fetched ref
`refs/tags/sync-<t>`; if a local branch `sync-<t>` already exists it
returns an error and never returns a repository state (so nothing is
overwritten); otherwise it succeeds with a new branch ref
`refs/heads/sync-<t>` pointing at that commit — appended, leaving all
previous refs in place — the head named `refs/heads/sync-<t>`, and the
working tree checked out at that commit. -/
theorem checkout_tag_spec (repo : GitRepo) (t : String) (c : Nat)
    (href : lookupAssoc repo.refs ("refs/tags/" ++ syncPre ++ t) = some c) :
    ((lookupAssoc repo.refs ("refs/heads/" ++ syncPre ++ t)).isSome = true →
      ∀ r, checkout_tag repo t ≠ Except.ok r) ∧
    (lookupAssoc repo.refs ("refs/heads/" ++ syncPre ++ t) = none →
      checkout_tag repo t = Except.ok
        { refs := repo.refs ++ [("refs/heads/" ++ syncPre ++ t, c)]
          head := "refs/heads/" ++ syncPre ++ t
          workdir := some c } ∧
      lookupAssoc (repo.refs ++ [("refs/heads/" ++ syncPre ++ t, c)])
        ("refs/heads/" ++ syncPre ++ t) = some c) := by
  constructor
  · intro hexists r
    unfold checkout_tag
    rw [href]
    simp [hexists]
  · intro habsent
    constructor
    · unfold checkout_tag
      rw [href]
      simp [habsent]
    · exact lookupAssoc_append_single _ _ _ habsent

/-- A repository state holding only the fetched ref `refs/tags/sync-v1.0`,
used to instantiate `checkout_tag_spec`. -/
def repoV10 : GitRepo where
  refs := [("refs/tags/sync-v1.0", 7)]
  head := "refs/heads/main"
  workdir := some 1

/-- Concrete instance of `checkout_tag_spec` for tag `v1.0` (the spec's
branch-naming scenario): the head ends up at `refs/heads/sync-v1.0`. -/
theorem checkout_tag_spec_witness :
    checkout_tag repoV10 "v1.0" =
      Except.ok
        { refs := [("refs/tags/sync-v1.0", 7), ("refs/heads/sync-v1.0", 7)]
          head := "refs/heads/sync-v1.0"
          workdir := some 7 } :=
  ((checkout_tag_spec repoV10 "v1.0" 7 (by decide)).2 (by decide)).1

/-- A git signature identity (`git2::Signature`, name and email). -/
structure Identity where
  name : String
  email : String
deriving DecidableEq

/-- The `CommitInfo` tuple `(author, committer, message)` produced by
`Context::commit_info`. Modelled from the spec: the `CommitInfo` type
alias lives in the missing `src/utils/commit.rs`; the spec's `PatchSpec`
carries author/committer identities and a message. -/
structure CommitMeta where
  author : Identity
  committer : Identity
  message : String
deriving DecidableEq

/-- A commit of the local repository: id, parent ids, metadata. -/
structure Commit where
  id : Nat
  parents : List Nat
  meta : CommitMeta
deriving DecidableEq

/-- The repository state seen by `RepoExt::apply_patch`: the commit store
and the commit the current head points at. -/
structure PatchRepo where
  commits : List Commit
  headCommit : Nat
deriving DecidableEq

/-- `RepoExt::apply_patch` (src/utils/git.rs lines 69-85): apply the diff
to index and working tree (`applyOk` abstracts `repo.apply(diff,
ApplyLocation::Both)`; a failure propagates before any commit is made),
then commit the resulting tree onto HEAD with the pre-patch head commit as
the single parent. `newId` is the id of the commit object created. -/
def apply_patch (repo : PatchRepo) (applyOk : Bool) (info : CommitMeta)
    (newId : Nat) : Except String PatchRepo :=
  if applyOk = false then Except.error "failed to apply the diff"
  else
    Except.ok
      { commits := repo.commits ++
          [{ id := newId, parents := [repo.headCommit], meta := info }]
        headCommit := newId }

/-- `Context::commit_info` (src/context.rs lines 227-240): author and
committer built from the PATCH_AUTHOR/PATCH_COMMITTER variables (`sigOk`
abstracts `Signature::now`, which rejects invalid name/email pairs), and
the message from PATCH_MESSAGE, defaulting to a reference to the patch
source URL when PATCH_MESSAGE is empty. -/
def commit_info (env : String → Option String) (sigOk : String → String → Bool)
    (patch_file_url : String) : Except String CommitMeta :=
  match getEnv env "PATCH_AUTHOR" with
  | Except.error e => Except.error e
  | Except.ok author_name =>
  match getEnv env "PATCH_AUTHOR_EMAIL" with
  | Except.error e => Except.error e
  | Except.ok author_email =>
  if sigOk author_name author_email = false then
    Except.error "invalid author signature"
  else
  match getEnv env "PATCH_COMMITTER" with
  | Except.error e => Except.error e
  | Except.ok committer_name =>
  match getEnv env "PATCH_COMMITTER_EMAIL" with
  | Except.error e => Except.error e
  | Except.ok committer_email =>
  if sigOk committer_name committer_email = false then
    Except.error "invalid committer signature"
  else
  match getEnv env "PATCH_MESSAGE" with
  | Except.error e => Except.error e
  | Except.ok message =>
  Except.ok
    { author := { name := author_name, email := author_email }
      committer := { name := committer_name, email := committer_email }
      message :=
        if message = "" then "Apply patch from " ++ patch_file_url else message }

/-- Claim C9: a successful `apply_patch` appends exactly one new commit
whose single parent is the pre-patch head commit and whose
author/committer/message are the configured `commit_info` (where the
message defaults to a reference to the patch source URL exactly when
PATCH_MESSAGE is empty), and moves the head to it; when applying the diff
fails, no commit is created (no repository state is returned at all). -/
theorem apply_patch_spec (repo : PatchRepo) (info : CommitMeta) (newId : Nat) :
    (∀ r, apply_patch repo false info newId ≠ Except.ok r) ∧
    (∀ repo2, apply_patch repo true info newId = Except.ok repo2 →
      repo2.commits = repo.commits ++
        [{ id := newId, parents := [repo.headCommit], meta := info }] ∧
      repo2.headCommit = newId) ∧
    (∀ (env : String → Option String) (sigOk : String → String → Bool)
        (url an ae cn ce m : String),
      env "PATCH_AUTHOR" = some an → env "PATCH_AUTHOR_EMAIL" = some ae →
      sigOk an ae = true →
      env "PATCH_COMMITTER" = some cn → env "PATCH_COMMITTER_EMAIL" = some ce →
      sigOk cn ce = true →
      env "PATCH_MESSAGE" = some m →
      commit_info env sigOk url = Except.ok
        { author := { name := an, email := ae }
          committer := { name := cn, email := ce }
          message := if m = "" then "Apply patch from " ++ url else m }) := by
  refine ⟨?_, ?_, ?_⟩
  · intro r h
    simp [apply_patch] at h
  · intro repo2 h
    simp only [apply_patch, Bool.true_eq_false, if_neg, reduceIte,
      Except.ok.injEq] at h
    rw [← h]
    exact ⟨rfl, rfl⟩
  · intro env sigOk url an ae cn ce m han hae hsa hcn hce hsc hm
    unfold commit_info
    simp [getEnv, han, hae, hsa, hcn, hce, hsc, hm]

/-- The environment for the C9 witness: patch identities configured, empty
PATCH_MESSAGE so the default message applies. -/
def envPatchMeta : String → Option String :=
  envOf [("PATCH_AUTHOR", "alice"), ("PATCH_AUTHOR_EMAIL", "alice@x"),
    ("PATCH_COMMITTER", "bob"), ("PATCH_COMMITTER_EMAIL", "bob@x"),
    ("PATCH_MESSAGE", "")]

/-- Concrete instance of `apply_patch_spec`: with an empty PATCH_MESSAGE
the commit message defaults to a reference to the patch source URL. -/
theorem apply_patch_spec_witness :
    commit_info envPatchMeta (fun _ _ => true) "https://p/x.patch" =
      Except.ok
        { author := { name := "alice", email := "alice@x" }
          committer := { name := "bob", email := "bob@x" }
          message := "Apply patch from https://p/x.patch" } :=
  (apply_patch_spec { commits := [], headCommit := 0 }
      { author := { name := "alice", email := "alice@x" },
        committer := { name := "bob", email := "bob@x" }, message := "" } 1).2.2
    envPatchMeta (fun _ _ => true) "https://p/x.patch" "alice" "alice@x" "bob"
    "bob@x" "" rfl rfl rfl rfl rfl rfl rfl
